import Mathlib

/-!
# CSystemLinux.h: conditional inclusion of the epoll / eventfd headers

`CSystemLinux/include/CSystemLinux.h` consists of a licence comment, `#pragma once`, and
two `#ifdef` groups.  The header is embedded as the list of its preprocessing directives,
and read by a small interpreter of the directive language (conditional groups, inclusion,
`#pragma once`, `#error`).  A system header named by `#include <...>` is not expanded: it
is recorded in the include list and is assumed not to define or undefine
`__ANDROID__` or `__linux__`.
-/

namespace CSystemLinux

/-! ## Directive language -/

/-- One preprocessing directive (one logical line of a file). -/
inductive Directive where
  | pragmaOnce
  | ifDefined (name : String)
  | includeHeader (header : String)
  | endif
  | errorDirective (msg : String)
  deriving DecidableEq, Repr

/-- Reasons for which preprocessing of a file stops. -/
inductive PPError where
  | errorReached (msg : String)
  | endifWithoutIf
  | unterminatedConditional
  deriving DecidableEq, Repr

/-- A target configuration: the names that are defined when the header is read. -/
abbrev Config := List String

/-- The test made by `#ifdef name`. -/
def defined (cfg : Config) (name : String) : Bool := cfg.contains name

/-- State of the preprocessor inside one file. -/
structure PPState where
  /-- One entry per open conditional group, innermost first: is the group taken? -/
  groups : List Bool
  /-- Has `#pragma once` been seen in this file? -/
  once : Bool
  /-- Headers included so far, in order. -/
  out : List String
  deriving DecidableEq, Repr

/-- A line is live when every enclosing conditional group is taken. -/
def PPState.live (st : PPState) : Bool := st.groups.all id

/-- State at the first line of a file. -/
def PPState.start : PPState := { groups := [], once := false, out := [] }

/-- Effect of one directive. -/
def step (cfg : Config) (st : PPState) : Directive → Except PPError PPState
  | .pragmaOnce => .ok (if st.live then { st with once := true } else st)
  | .ifDefined name => .ok { st with groups := defined cfg name :: st.groups }
  | .includeHeader h => .ok (if st.live then { st with out := st.out ++ [h] } else st)
  | .endif =>
    match st.groups with
    | [] => .error .endifWithoutIf
    | _ :: rest => .ok { st with groups := rest }
  | .errorDirective msg => if st.live then .error (.errorReached msg) else .ok st

/-- Effect of a run of directives, stopping at the first error. -/
def run (cfg : Config) : List Directive → PPState → Except PPError PPState
  | [], st => .ok st
  | d :: ds, st =>
    match step cfg st d with
    | .ok st' => run cfg ds st'
    | .error e => .error e

/-- Preprocess one file: (was `#pragma once` seen, the include list). -/
def preprocessFile (cfg : Config) (ds : List Directive) : Except PPError (Bool × List String) :=
  match run cfg ds PPState.start with
  | .ok st => if st.groups.isEmpty then .ok (st.once, st.out) else .error .unterminatedConditional
  | .error e => .error e

/-! ## The header -/

/-- Name under which the header is included. -/
def headerName : String := "CSystemLinux.h"

/-- The directives of `CSystemLinux.h`, lines 10 to 20. -/
def header : List Directive :=
  [ .pragmaOnce,
    .ifDefined "__ANDROID__",
    .includeHeader "<linux/eventpoll.h>",
    .includeHeader "<poll.h>",
    .endif,
    .ifDefined "__linux__",
    .includeHeader "<sys/epoll.h>",
    .includeHeader "<sys/eventfd.h>",
    .endif ]

/-- Include list of the header under a configuration. -/
def includeList (cfg : Config) : Except PPError (List String) :=
  (preprocessFile cfg header).map Prod.snd

/-- Does the header include `h` under `cfg`? -/
def includes (cfg : Config) (h : String) : Prop :=
  ∃ out, includeList cfg = .ok out ∧ h ∈ out

/-- The headers of the first group (`#ifdef __ANDROID__`). -/
def androidHeaders : List String := ["<linux/eventpoll.h>", "<poll.h>"]

/-- The headers of the second group (`#ifdef __linux__`). -/
def linuxHeaders : List String := ["<sys/epoll.h>", "<sys/eventfd.h>"]

/-! ## Translation units including the header several times -/

/-- State of a translation unit: files marked by `#pragma once`, and the include list. -/
structure TUState where
  onceFiles : List String
  out : List String
  deriving DecidableEq, Repr

/-- An empty translation unit. -/
def TUState.start : TUState := { onceFiles := [], out := [] }

/-- Effect of `#include "name"` for a file with directives `body`: a file already marked
by `#pragma once` is skipped, otherwise it is preprocessed and its includes appended. -/
def includeFile (cfg : Config) (name : String) (body : List Directive) (tu : TUState) :
    Except PPError TUState :=
  if tu.onceFiles.contains name then .ok tu
  else
    match preprocessFile cfg body with
    | .ok (once, incs) =>
      .ok { onceFiles := if once then name :: tu.onceFiles else tu.onceFiles,
            out := tu.out ++ incs }
    | .error e => .error e

/-- Including the header `n` times in a row. -/
def includeTimes (cfg : Config) : Nat → TUState → Except PPError TUState
  | 0, tu => .ok tu
  | n + 1, tu =>
    match includeFile cfg headerName header tu with
    | .ok tu' => includeTimes cfg n tu'
    | .error e => .error e

/-! ## Event-notification facade

The header only makes the declarations of `epoll` and `eventfd` visible; the registry and
counter operations described in sections 3 and 4.2 of the specification are not defined by
any code of the header.  They are modelled here from the specification's words.
-/

namespace Facade

/-- Modelled from the spec: the typed failures of section 4.2 and section 7; no facade code
is present in the header. -/
inductive FacadeError where
  | unsupported
  | alreadyClosed
  | notRegistered
  | overflow
  | interrupted
  | wouldBlock
  | invalidSource
  deriving DecidableEq, Repr

/-- Modelled from the spec: result of an operation that is a suspension point (`wait`,
`consume`): a value, a typed failure, or the caller stays blocked. -/
inductive Outcome (α : Type) where
  | ok (a : α)
  | fails (e : FacadeError)
  | blocks
  deriving DecidableEq, Repr

/-- Modelled from the spec: `PlatformFamily` of section 3. -/
inductive PlatformFamily where
  | epollEventfdFamily
  | unsupported
  deriving DecidableEq, Repr

/-- Modelled from the spec: a source that a registry can watch (the spec leaves it
abstract; a descriptor number here). -/
abbrev Source := Nat

/-- Modelled from the spec: an interest mask, or a set of observed events, as a bit mask. -/
abbrev InterestMask := Nat

/-! ### Event counter -/

/-- Modelled from the spec: `EventCounter` of section 3, as the value of the kernel object
and whether the handle has been closed. -/
structure EventCounter where
  value : Nat
  closed : Bool
  deriving DecidableEq, Repr

/-- Modelled from the spec: the two configurations of `consume` on a zero counter. -/
inductive ConsumeMode where
  | synchronous
  | nonBlocking
  deriving DecidableEq, Repr

/-- Modelled from the spec: `openCounter(initialValue)`, failing with `Unsupported` unless
the family is `EpollEventfdFamily`. -/
def openCounter (family : PlatformFamily) (initialValue : Nat) :
    Except FacadeError EventCounter :=
  match family with
  | .epollEventfdFamily => .ok { value := initialValue, closed := false }
  | .unsupported => .error .unsupported

/-- Modelled from the spec: `add(counter, delta)`; `cap` is the platform's maximum
representable counter value.  A sum above `cap` fails with `Overflow` and changes
nothing. -/
def add (cap : Nat) (c : EventCounter) (delta : Nat) : EventCounter × Except FacadeError Unit :=
  if c.closed then (c, .error .alreadyClosed)
  else if cap < c.value + delta then (c, .error .overflow)
  else ({ c with value := c.value + delta }, .ok ())

/-- Modelled from the spec: `consume(counter)`: reads the counter and resets it to zero;
on a zero counter it blocks (synchronous) or reports `WouldBlock` (non-blocking). -/
def consume (mode : ConsumeMode) (c : EventCounter) : EventCounter × Outcome Nat :=
  if c.closed then (c, .fails .alreadyClosed)
  else if c.value = 0 then
    match mode with
    | .synchronous => (c, .blocks)
    | .nonBlocking => (c, .fails .wouldBlock)
  else ({ c with value := 0 }, .ok c.value)

/-- Modelled from the spec: `close(counter)`, idempotent. -/
def closeCounter (c : EventCounter) : EventCounter × Except FacadeError Unit :=
  if c.closed then (c, .ok ()) else ({ c with closed := true }, .ok ())

/-! ### Readiness registry -/

/-- Modelled from the spec: `ReadinessRegistry` of section 3: the registered
(source, interest-mask) pairs and whether the handle has been closed. -/
structure ReadinessRegistry where
  entries : List (Source × InterestMask)
  closed : Bool
  deriving DecidableEq, Repr

/-- Modelled from the spec: the sources registered in a registry. -/
def ReadinessRegistry.sources (r : ReadinessRegistry) : List Source := r.entries.map Prod.fst

/-- Modelled from the spec: the interest mask under which a source is registered, if any. -/
def maskOf (s : Source) : List (Source × InterestMask) → Option InterestMask
  | [] => none
  | (s', m) :: rest => if s' = s then some m else maskOf s rest

/-- Modelled from the spec: registration with replace semantics: the mask of a registered
source is overwritten, a new source gets a new entry. -/
def setMask (s : Source) (m : InterestMask) :
    List (Source × InterestMask) → List (Source × InterestMask)
  | [] => [(s, m)]
  | (s', m') :: rest => if s' = s then (s, m) :: rest else (s', m') :: setMask s m rest

/-- Modelled from the spec: removal of a source from the membership. -/
def dropSource (s : Source) (es : List (Source × InterestMask)) : List (Source × InterestMask) :=
  es.filter (fun e => decide (e.1 ≠ s))

/-- Modelled from the spec: `open()`, failing with `Unsupported` unless the family is
`EpollEventfdFamily`. -/
def openRegistry (family : PlatformFamily) : Except FacadeError ReadinessRegistry :=
  match family with
  | .epollEventfdFamily => .ok { entries := [], closed := false }
  | .unsupported => .error .unsupported

/-- Modelled from the spec: `register(registry, source, interestMask)`.  The spec does not
say which sources are invalid: `valid` is a parameter. -/
def register (valid : Source → Bool) (r : ReadinessRegistry) (s : Source) (m : InterestMask) :
    ReadinessRegistry × Except FacadeError Unit :=
  if r.closed then (r, .error .alreadyClosed)
  else if valid s then ({ r with entries := setMask s m r.entries }, .ok ())
  else (r, .error .invalidSource)

/-- Modelled from the spec: `unregister(registry, source)`; a closed handle fails with
`AlreadyClosed` (error table of section 4.2). -/
def unregister (r : ReadinessRegistry) (s : Source) :
    ReadinessRegistry × Except FacadeError Unit :=
  if r.closed then (r, .error .alreadyClosed)
  else if (maskOf s r.entries).isSome then ({ r with entries := dropSource s r.entries }, .ok ())
  else (r, .error .notRegistered)

/-- Modelled from the spec: `close(registry)`: releases the handle; a second call is a
no-op. -/
def close (r : ReadinessRegistry) : ReadinessRegistry × Except FacadeError Unit :=
  if r.closed then (r, .ok ()) else ({ r with closed := true }, .ok ())

/-- Modelled from the spec: the timeout of `wait`. -/
inductive Timeout where
  | zero
  | finite (ms : Nat)
  | infinite
  deriving DecidableEq, Repr

/-- Modelled from the spec: what the surroundings decide during one `wait`: the events
observed on each source (none when the source is not ready), and whether an external
signal arrives. -/
structure WaitEnv where
  ready : Source → Option InterestMask
  interrupted : Bool

/-- Modelled from the spec: `wait(registry, timeout)`: the ready registered sources; the
empty sequence on timeout; blocked for ever when nothing is ready and the timeout is
infinite. -/
def wait (env : WaitEnv) (r : ReadinessRegistry) (timeout : Timeout) :
    Outcome (List (Source × InterestMask)) :=
  if r.closed then .fails .alreadyClosed
  else if env.interrupted then .fails .interrupted
  else
    let events := r.entries.filterMap (fun e => (env.ready e.1).map (fun obs => (e.1, obs)))
    if events.isEmpty then
      match timeout with
      | .infinite => .blocks
      | _ => .ok []
    else .ok events

/-! ### Sequences of registration calls -/

/-- Modelled from the spec: one `register` or `unregister` call of a replayed sequence. -/
inductive Call where
  | register (s : Source) (m : InterestMask)
  | unregister (s : Source)
  deriving DecidableEq, Repr

/-- Modelled from the spec: the source that a call names. -/
def Call.source : Call → Source
  | .register s _ => s
  | .unregister s => s

/-- Modelled from the spec: effect of one call on the registry (its outcome dropped). -/
def applyCall (valid : Source → Bool) (r : ReadinessRegistry) : Call → ReadinessRegistry
  | .register s m => (register valid r s m).1
  | .unregister s => (unregister r s).1

/-- Modelled from the spec: replay of a sequence of calls, in order. -/
def replay (valid : Source → Bool) (calls : List Call) (r : ReadinessRegistry) :
    ReadinessRegistry :=
  calls.foldl (applyCall valid) r

/-- Modelled from the spec: the last call of a sequence that names `s`. -/
def lastCall (calls : List Call) (s : Source) : Option Call :=
  calls.reverse.find? (fun c => decide (c.source = s))

/-- Modelled from the spec: net effect of a sequence on one source ("last mask wins"):
registered under the mask of the last call when that call is a `register`, not registered
when it is an `unregister`, as before when no call names the source. -/
def netEffect (calls : List Call) (s : Source) (before : Option InterestMask) :
    Option InterestMask :=
  match lastCall calls s with
  | none => before
  | some (.register _ m) => some m
  | some (.unregister _) => none

end Facade

/-! ## Evaluation of the header -/

/-- The header always preprocesses, to the two guarded groups in order. -/
theorem preprocessFile_header (cfg : Config) :
    preprocessFile cfg header =
      .ok (true, (if defined cfg "__ANDROID__" then androidHeaders else []) ++
                 (if defined cfg "__linux__" then linuxHeaders else [])) := by
  cases hA : defined cfg "__ANDROID__" <;> cases hL : defined cfg "__linux__" <;>
    simp [preprocessFile, header, run, step, PPState.start, PPState.live, hA, hL,
      androidHeaders, linuxHeaders]

theorem includeList_header (cfg : Config) :
    includeList cfg =
      .ok ((if defined cfg "__ANDROID__" then androidHeaders else []) ++
           (if defined cfg "__linux__" then linuxHeaders else [])) := by
  simp [includeList, preprocessFile_header, Except.map]


theorem includes_iff (cfg : Config) (h : String) :
    includes cfg h ↔
      h ∈ (if defined cfg "__ANDROID__" then androidHeaders else []) ++
          (if defined cfg "__linux__" then linuxHeaders else []) := by
  unfold includes
  rw [includeList_header]
  constructor
  · rintro ⟨out, hout, hmem⟩
    cases hout
    exact hmem
  · intro hmem
    exact ⟨_, rfl, hmem⟩

theorem includes_epoll_iff (cfg : Config) :
    includes cfg "<sys/epoll.h>" ↔ defined cfg "__linux__" = true := by
  rw [includes_iff]
  cases hA : defined cfg "__ANDROID__" <;> cases hL : defined cfg "__linux__" <;>
    simp [androidHeaders, linuxHeaders]

theorem includes_eventfd_iff (cfg : Config) :
    includes cfg "<sys/eventfd.h>" ↔ defined cfg "__linux__" = true := by
  rw [includes_iff]
  cases hA : defined cfg "__ANDROID__" <;> cases hL : defined cfg "__linux__" <;>
    simp [androidHeaders, linuxHeaders]

theorem includes_eventpoll_iff (cfg : Config) :
    includes cfg "<linux/eventpoll.h>" ↔ defined cfg "__ANDROID__" = true := by
  rw [includes_iff]
  cases hA : defined cfg "__ANDROID__" <;> cases hL : defined cfg "__linux__" <;>
    simp [androidHeaders, linuxHeaders]

theorem includes_poll_iff (cfg : Config) :
    includes cfg "<poll.h>" ↔ defined cfg "__ANDROID__" = true := by
  rw [includes_iff]
  cases hA : defined cfg "__ANDROID__" <;> cases hL : defined cfg "__linux__" <;>
    simp [androidHeaders, linuxHeaders]

/-! ## Claims about the header -/

/-- C1: under every configuration the header includes `<sys/epoll.h>` if and only if it
includes `<sys/eventfd.h>`, and it includes both exactly when `__linux__` is defined. -/
theorem C1_epoll_iff_eventfd (cfg : Config) :
    (includes cfg "<sys/epoll.h>" ↔ includes cfg "<sys/eventfd.h>") ∧
    ((includes cfg "<sys/epoll.h>" ∧ includes cfg "<sys/eventfd.h>") ↔
      defined cfg "__linux__" = true) := by
  rw [includes_epoll_iff, includes_eventfd_iff]
  simp

/-- C2: under every configuration the header preprocesses to an include list without an
error, it holds no `#error` directive, and when neither `__ANDROID__` nor `__linux__` is
defined the include list is empty. -/
theorem C2_resolution_never_fails (cfg : Config) :
    (∃ out, includeList cfg = .ok out) ∧
    (∀ msg, Directive.errorDirective msg ∉ header) ∧
    (defined cfg "__ANDROID__" = false → defined cfg "__linux__" = false →
      includeList cfg = .ok []) := by
  refine ⟨⟨_, includeList_header cfg⟩, ?_, ?_⟩
  · intro msg
    simp [header]
  · intro hA hL
    rw [includeList_header, hA, hL]
    rfl

/-- Witness of C2: a configuration that defines only `__APPLE__` gets the empty list. -/
theorem C2_resolution_never_fails_witness : includeList ["__APPLE__"] = .ok [] :=
  (C2_resolution_never_fails ["__APPLE__"]).2.2 (by decide) (by decide)

/-- C3, as stated, fails: a configuration that defines `__ANDROID__` and not `__linux__`
gets `<linux/eventpoll.h>` and `<poll.h>` only, so `<sys/eventfd.h>` is not included. -/
theorem C3_counterexample :
    defined ["__ANDROID__"] "__ANDROID__" = true ∧
    includeList ["__ANDROID__"] = .ok ["<linux/eventpoll.h>", "<poll.h>"] ∧
    ¬ includes ["__ANDROID__"] "<sys/eventfd.h>" := by
  refine ⟨by decide, by rfl, ?_⟩
  rw [includes_eventfd_iff]
  decide

/-- C3, amended: a configuration that defines `__ANDROID__` always gets the registry header
`<linux/eventpoll.h>` and `<poll.h>`; it gets `<sys/eventfd.h>` and `<sys/epoll.h>`, as a
configuration defining `__linux__` does, exactly when it also defines `__linux__`. -/
theorem C3_android_headers (cfg : Config) (hA : defined cfg "__ANDROID__" = true) :
    includes cfg "<linux/eventpoll.h>" ∧ includes cfg "<poll.h>" ∧
    (includes cfg "<sys/eventfd.h>" ↔ defined cfg "__linux__" = true) ∧
    (includes cfg "<sys/epoll.h>" ↔ defined cfg "__linux__" = true) :=
  ⟨(includes_eventpoll_iff cfg).2 hA, (includes_poll_iff cfg).2 hA,
    includes_eventfd_iff cfg, includes_epoll_iff cfg⟩

/-- Witness of C3 amended: an Android configuration that also defines `__linux__`. -/
theorem C3_android_headers_witness :
    includes ["__ANDROID__", "__linux__"] "<linux/eventpoll.h>" ∧
    includes ["__ANDROID__", "__linux__"] "<poll.h>" ∧
    (includes ["__ANDROID__", "__linux__"] "<sys/eventfd.h>" ↔
      defined ["__ANDROID__", "__linux__"] "__linux__" = true) ∧
    (includes ["__ANDROID__", "__linux__"] "<sys/epoll.h>" ↔
      defined ["__ANDROID__", "__linux__"] "__linux__" = true) :=
  C3_android_headers ["__ANDROID__", "__linux__"] (by decide)

/-- C4, as stated, fails: a configuration that defines both `__ANDROID__` and `__linux__`
gets the two header sets together. -/
theorem C4_counterexample :
    includeList ["__ANDROID__", "__linux__"] =
      .ok ["<linux/eventpoll.h>", "<poll.h>", "<sys/epoll.h>", "<sys/eventfd.h>"] ∧
    (∀ h ∈ androidHeaders, includes ["__ANDROID__", "__linux__"] h) ∧
    (∀ h ∈ linuxHeaders, includes ["__ANDROID__", "__linux__"] h) := by
  refine ⟨by rfl, ?_, ?_⟩
  · intro h hh
    rw [includes_iff]
    simp only [androidHeaders, List.mem_cons, List.mem_singleton, List.not_mem_nil,
      or_false] at hh
    rcases hh with rfl | rfl <;> decide
  · intro h hh
    rw [includes_iff]
    simp only [linuxHeaders, List.mem_cons, List.mem_singleton, List.not_mem_nil,
      or_false] at hh
    rcases hh with rfl | rfl <;> decide

/-- C4, amended: the two header sets are guarded independently: the Android set is
included exactly when `__ANDROID__` is defined and the Linux set exactly when `__linux__`
is defined, so both are included exactly when both names are defined. -/
theorem C4_sets_guarded_independently (cfg : Config) :
    ((∀ h ∈ androidHeaders, includes cfg h) ↔ defined cfg "__ANDROID__" = true) ∧
    ((∀ h ∈ linuxHeaders, includes cfg h) ↔ defined cfg "__linux__" = true) ∧
    (((∀ h ∈ androidHeaders, includes cfg h) ∧ (∀ h ∈ linuxHeaders, includes cfg h)) ↔
      (defined cfg "__ANDROID__" = true ∧ defined cfg "__linux__" = true)) := by
  have hA : (∀ h ∈ androidHeaders, includes cfg h) ↔ defined cfg "__ANDROID__" = true := by
    simp [androidHeaders, includes_eventpoll_iff, includes_poll_iff]
  have hL : (∀ h ∈ linuxHeaders, includes cfg h) ↔ defined cfg "__linux__" = true := by
    simp [linuxHeaders, includes_epoll_iff, includes_eventfd_iff]
  exact ⟨hA, hL, by rw [hA, hL]⟩

/-- C5: under every configuration and for every `n ≥ 1`, including the header `n` times
gives the state, hence the include list, that including it once gives: the first inclusion
marks the file by `#pragma once`, and a later inclusion changes nothing. -/
theorem C5_inclusion_idempotent (cfg : Config) (n : Nat) (hn : 1 ≤ n) :
    ∃ tu, includeTimes cfg 1 TUState.start = .ok tu ∧
      includeTimes cfg n TUState.start = .ok tu ∧
      includeFile cfg headerName header tu = .ok tu ∧
      includeList cfg = .ok tu.out := by
  have hskip : ∀ (out : List String) (k : Nat),
      includeTimes cfg k { onceFiles := [headerName], out := out } =
        .ok { onceFiles := [headerName], out := out } := by
    intro out k
    induction k with
    | zero => rfl
    | succ k ih => simp [includeTimes, includeFile, ih]
  obtain ⟨m, rfl⟩ : ∃ m, n = m + 1 := ⟨n - 1, by omega⟩
  refine ⟨{ onceFiles := [headerName], out :=
      (if defined cfg "__ANDROID__" then androidHeaders else []) ++
      (if defined cfg "__linux__" then linuxHeaders else []) }, ?_, ?_, ?_, ?_⟩
  · simp [includeTimes, includeFile, preprocessFile_header, TUState.start]
  · simp [includeTimes, includeFile, preprocessFile_header, TUState.start, hskip]
  · simp [includeFile]
  · exact includeList_header cfg

/-- Witness of C5: three inclusions under a Linux configuration. -/
theorem C5_inclusion_idempotent_witness :
    ∃ tu, includeTimes ["__linux__"] 1 TUState.start = .ok tu ∧
      includeTimes ["__linux__"] 3 TUState.start = .ok tu ∧
      includeFile ["__linux__"] headerName header tu = .ok tu ∧
      includeList ["__linux__"] = .ok tu.out :=
  C5_inclusion_idempotent ["__linux__"] 3 (by decide)

/-- C10: under every configuration the include list is the Android pair when
`__ANDROID__` is defined, followed by the Linux pair when `__linux__` is defined; with both
defined it is the four headers, Android pair first; and two configurations that agree on
the two names get the same list. -/
theorem C10_guards_independent (cfg : Config) :
    includeList cfg =
      .ok ((if defined cfg "__ANDROID__" then ["<linux/eventpoll.h>", "<poll.h>"] else []) ++
           (if defined cfg "__linux__" then ["<sys/epoll.h>", "<sys/eventfd.h>"] else [])) ∧
    (defined cfg "__ANDROID__" = true → defined cfg "__linux__" = true →
      includeList cfg =
        .ok ["<linux/eventpoll.h>", "<poll.h>", "<sys/epoll.h>", "<sys/eventfd.h>"]) ∧
    (∀ other : Config, defined other "__ANDROID__" = defined cfg "__ANDROID__" →
      defined other "__linux__" = defined cfg "__linux__" →
      includeList other = includeList cfg) := by
  refine ⟨includeList_header cfg, ?_, ?_⟩
  · intro hA hL
    rw [includeList_header, hA, hL]
    rfl
  · intro other hA hL
    rw [includeList_header, includeList_header, hA, hL]

/-- Witness of C10: two configurations that agree on the two names and differ elsewhere. -/
theorem C10_guards_independent_witness :
    includeList ["__linux__", "__x86_64__", "__ANDROID__"] =
      includeList ["__ANDROID__", "__linux__"] :=
  (C10_guards_independent ["__ANDROID__", "__linux__"]).2.2
    ["__linux__", "__x86_64__", "__ANDROID__"] (by decide) (by decide)

/-! ## Claims about the facade -/

namespace Facade

theorem maskOf_setMask_self (s : Source) (m : InterestMask) (es : List (Source × InterestMask)) :
    maskOf s (setMask s m es) = some m := by
  induction es with
  | nil => simp [setMask, maskOf]
  | cons e rest ih =>
    obtain ⟨s', m'⟩ := e
    by_cases h : s' = s <;> simp [setMask, maskOf, h, ih]

theorem maskOf_setMask_ne (s t : Source) (m : InterestMask) (es : List (Source × InterestMask))
    (hne : t ≠ s) : maskOf s (setMask t m es) = maskOf s es := by
  induction es with
  | nil => simp [setMask, maskOf, hne]
  | cons e rest ih =>
    obtain ⟨s', m'⟩ := e
    by_cases h : s' = t
    · subst h
      simp [setMask, maskOf, hne]
    · by_cases h2 : s' = s
      · subst h2
        simp [setMask, maskOf, h]
      · simp [setMask, maskOf, h, h2, ih]

theorem maskOf_dropSource_self (s : Source) (es : List (Source × InterestMask)) :
    maskOf s (dropSource s es) = none := by
  induction es with
  | nil => rfl
  | cons e rest ih =>
    obtain ⟨s', m'⟩ := e
    by_cases h : s' = s
    · simpa [dropSource, List.filter_cons, h] using ih
    · simpa [dropSource, List.filter_cons, maskOf, h] using ih

theorem maskOf_dropSource_ne (s t : Source) (es : List (Source × InterestMask)) (hne : t ≠ s) :
    maskOf s (dropSource t es) = maskOf s es := by
  induction es with
  | nil => rfl
  | cons e rest ih =>
    obtain ⟨s', m'⟩ := e
    by_cases h : s' = t
    · subst h
      simpa [dropSource, List.filter_cons, maskOf, hne] using ih
    · by_cases h2 : s' = s
      · subst h2
        simp [dropSource, List.filter_cons, maskOf, h]
      · simpa [dropSource, List.filter_cons, maskOf, h, h2] using ih

theorem maskOf_isSome_iff (s : Source) (es : List (Source × InterestMask)) :
    (maskOf s es).isSome = true ↔ s ∈ es.map Prod.fst := by
  induction es with
  | nil => simp [maskOf]
  | cons e rest ih =>
    obtain ⟨s', m'⟩ := e
    by_cases h : s' = s
    · simp [maskOf, h]
    · have h2 : ¬ s = s' := fun h3 => h h3.symm
      simp [maskOf, h, h2, ih]

theorem mem_sources_setMask (x s : Source) (m : InterestMask) (es : List (Source × InterestMask)) :
    x ∈ (setMask s m es).map Prod.fst ↔ x = s ∨ x ∈ es.map Prod.fst := by
  induction es with
  | nil => simp [setMask]
  | cons e rest ih =>
    obtain ⟨s', m'⟩ := e
    by_cases h : s' = s
    · subst h
      simp [setMask]
    · simp only [setMask, h, if_false, List.map_cons, List.mem_cons, ih]
      tauto

theorem nodup_setMask (s : Source) (m : InterestMask) (es : List (Source × InterestMask))
    (h : (es.map Prod.fst).Nodup) : ((setMask s m es).map Prod.fst).Nodup := by
  induction es with
  | nil => simp [setMask]
  | cons e rest ih =>
    obtain ⟨s', m'⟩ := e
    simp only [List.map_cons, List.nodup_cons] at h
    by_cases hs : s' = s
    · subst hs
      simpa [setMask] using h
    · have hstep : setMask s m ((s', m') :: rest) = (s', m') :: setMask s m rest := by
        simp [setMask, hs]
      rw [hstep, List.map_cons, List.nodup_cons, mem_sources_setMask]
      exact ⟨fun h1 => h1.elim hs h.1, ih h.2⟩

theorem nodup_dropSource (s : Source) (es : List (Source × InterestMask))
    (h : (es.map Prod.fst).Nodup) : ((dropSource s es).map Prod.fst).Nodup :=
  h.sublist ((List.filter_sublist es).map _)

theorem applyCall_closed (valid : Source → Bool) (r : ReadinessRegistry) (c : Call)
    (hopen : r.closed = false) : (applyCall valid r c).closed = false := by
  cases c with
  | register s m =>
    by_cases hv : valid s = true <;> simp [applyCall, register, hopen, hv]
  | unregister s =>
    by_cases hm : (maskOf s r.entries).isSome = true <;> simp [applyCall, unregister, hopen, hm]

theorem applyCall_nodup (valid : Source → Bool) (r : ReadinessRegistry) (c : Call)
    (h : r.sources.Nodup) : (applyCall valid r c).sources.Nodup := by
  unfold ReadinessRegistry.sources at *
  cases c with
  | register s m =>
    by_cases hc : r.closed = true
    · simpa [applyCall, register, hc] using h
    · by_cases hv : valid s = true
      · simpa [applyCall, register, hc, hv] using nodup_setMask s m r.entries h
      · simpa [applyCall, register, hc, hv] using h
  | unregister s =>
    by_cases hc : r.closed = true
    · simpa [applyCall, unregister, hc] using h
    · by_cases hm : (maskOf s r.entries).isSome = true
      · simpa [applyCall, unregister, hc, hm] using nodup_dropSource s r.entries h
      · simpa [applyCall, unregister, hc, hm] using h

/-- Effect of one call on the mask of a valid source in an open registry. -/
theorem maskOf_applyCall (valid : Source → Bool) (r : ReadinessRegistry) (c : Call) (s : Source)
    (hopen : r.closed = false) (hs : valid s = true) :
    maskOf s (applyCall valid r c).entries =
      if c.source = s then
        (match c with
         | .register _ m => some m
         | .unregister _ => none)
      else maskOf s r.entries := by
  cases c with
  | register t m =>
    by_cases ht : t = s
    · subst ht
      simp [applyCall, register, hopen, hs, Call.source, maskOf_setMask_self]
    · by_cases hv : valid t = true
      · simp [applyCall, register, hopen, hv, Call.source, ht, maskOf_setMask_ne s t m _ ht]
      · simp [applyCall, register, hopen, hv, Call.source, ht]
  | unregister t =>
    by_cases ht : t = s
    · subst ht
      by_cases hm : (maskOf t r.entries).isSome = true
      · simp [applyCall, unregister, hopen, hm, Call.source, maskOf_dropSource_self]
      · have hnone : maskOf t r.entries = none := by
          cases hq : maskOf t r.entries with
          | none => rfl
          | some q => simp [hq] at hm
        simp [applyCall, unregister, hopen, hnone, Call.source]
    · by_cases hm : (maskOf t r.entries).isSome = true
      · simp [applyCall, unregister, hopen, hm, Call.source, ht, maskOf_dropSource_ne s t _ ht]
      · simp [applyCall, unregister, hopen, hm, Call.source, ht]

theorem replay_snoc (valid : Source → Bool) (calls : List Call) (c : Call)
    (r : ReadinessRegistry) :
    replay valid (calls ++ [c]) r = applyCall valid (replay valid calls r) c := by
  simp [replay, List.foldl_append]

theorem netEffect_snoc (calls : List Call) (c : Call) (s : Source)
    (before : Option InterestMask) :
    netEffect (calls ++ [c]) s before =
      if c.source = s then
        (match c with
         | .register _ m => some m
         | .unregister _ => none)
      else netEffect calls s before := by
  by_cases h : c.source = s
  · cases c <;> simp [netEffect, lastCall, List.find?_cons, h]
  · simp [netEffect, lastCall, List.find?_cons, h]

theorem replay_invariant (valid : Source → Bool) (r : ReadinessRegistry) (calls : List Call)
    (s : Source) (hopen : r.closed = false) (hnodup : r.sources.Nodup) (hs : valid s = true) :
    (replay valid calls r).closed = false ∧ (replay valid calls r).sources.Nodup ∧
    maskOf s (replay valid calls r).entries = netEffect calls s (maskOf s r.entries) := by
  induction calls using List.reverseRecOn with
  | nil => exact ⟨hopen, hnodup, rfl⟩
  | append_singleton cs c ih =>
    obtain ⟨h1, h2, h3⟩ := ih
    rw [replay_snoc, netEffect_snoc]
    refine ⟨applyCall_closed valid _ c h1, applyCall_nodup valid _ c h2, ?_⟩
    rw [maskOf_applyCall valid _ c s h1 hs, h3]

/-- C6, as stated, fails: on a fresh counter, `add 1`, `add 2`, `consume` returns 3 and
resets the counter, and the consume issued immediately afterwards does not return 0: it
reports `WouldBlock` (non-blocking) or blocks (synchronous). -/
theorem C6_counterexample :
    add 18446744073709551615 { value := 0, closed := false } 1 =
      ({ value := 1, closed := false }, .ok ()) ∧
    add 18446744073709551615 { value := 1, closed := false } 2 =
      ({ value := 3, closed := false }, .ok ()) ∧
    consume .nonBlocking { value := 3, closed := false } =
      ({ value := 0, closed := false }, .ok 3) ∧
    consume .nonBlocking { value := 0, closed := false } =
      ({ value := 0, closed := false }, .fails .wouldBlock) ∧
    (consume .synchronous { value := 0, closed := false }).2 = .blocks ∧
    (consume .nonBlocking { value := 0, closed := false }).2 ≠ .ok 0 ∧
    (consume .synchronous { value := 0, closed := false }).2 ≠ .ok 0 := by
  refine ⟨by rfl, by rfl, by rfl, by rfl, by rfl, by decide, by decide⟩

/-- C6, amended: for an open counter holding `v` and all `a`, `b` with
`0 < v + a + b ≤ cap`, `add a`, `add b`, `consume` returns exactly `v + a + b` (that is
`a + b` on a counter holding 0) and leaves the counter at zero; a consume issued
immediately afterwards returns no value: it blocks in the synchronous configuration and
reports `WouldBlock` in the non-blocking one, the counter unchanged. -/
theorem C6_add_add_consume (cap : Nat) (mode : ConsumeMode) (c : EventCounter) (a b : Nat)
    (hopen : c.closed = false) (hfit : c.value + a + b ≤ cap) (hpos : 0 < c.value + a + b) :
    add cap c a = ({ value := c.value + a, closed := false }, .ok ()) ∧
    add cap { value := c.value + a, closed := false } b =
      ({ value := c.value + a + b, closed := false }, .ok ()) ∧
    consume mode { value := c.value + a + b, closed := false } =
      ({ value := 0, closed := false }, .ok (c.value + a + b)) ∧
    consume mode { value := 0, closed := false } =
      ({ value := 0, closed := false },
        match mode with
        | .synchronous => .blocks
        | .nonBlocking => .fails .wouldBlock) := by
  obtain ⟨v, cl⟩ := c
  simp only at hopen hfit hpos
  subst hopen
  have h1 : ¬ cap < v + a := by omega
  have h2 : ¬ cap < v + a + b := by omega
  have h3 : ¬ v + a + b = 0 := by omega
  refine ⟨?_, ?_, ?_, ?_⟩
  · simp [add, h1]
  · simp [add, h2]
  · simp [consume, h3]
  · cases mode <;> simp [consume]

/-- Witness of C6 amended: a fresh counter, `a = 1`, `b = 2`, non-blocking. -/
theorem C6_add_add_consume_witness :
    consume .nonBlocking { value := 0 + 1 + 2, closed := false } =
      ({ value := 0, closed := false }, .ok (0 + 1 + 2)) ∧
    consume .nonBlocking { value := 0, closed := false } =
      ({ value := 0, closed := false }, .fails .wouldBlock) :=
  ⟨(C6_add_add_consume 18446744073709551615 .nonBlocking { value := 0, closed := false } 1 2
      rfl (by decide) (by decide)).2.2.1,
   (C6_add_add_consume 18446744073709551615 .nonBlocking { value := 0, closed := false } 1 2
      rfl (by decide) (by decide)).2.2.2⟩

/-- C7: for an open counter holding `v` and a delta `d` with `v + d` above the maximum
`cap`, `add` fails with `Overflow` and the counter is returned unchanged, its value still
`v`. -/
theorem C7_add_overflow (cap : Nat) (c : EventCounter) (d : Nat)
    (hopen : c.closed = false) (hover : cap < c.value + d) :
    add cap c d = (c, .error .overflow) ∧ (add cap c d).1.value = c.value := by
  simp [add, hopen, hover]

/-- Witness of C7: a counter at the 64-bit maximum, `add 1`. -/
theorem C7_add_overflow_witness :
    add 18446744073709551615 { value := 18446744073709551615, closed := false } 1 =
      ({ value := 18446744073709551615, closed := false }, .error .overflow) ∧
    (add 18446744073709551615 { value := 18446744073709551615, closed := false } 1).1.value =
      18446744073709551615 :=
  C7_add_overflow 18446744073709551615 { value := 18446744073709551615, closed := false } 1
    rfl (by decide)

/-- C8: after any sequence of `register` and `unregister` calls replayed on an open
registry, each source appears at most once, and a valid source is a member exactly when
the net effect of the sequence says so, under exactly the mask of its last `register`
call: registered with the last mask when its last call is a `register`, absent when it is
an `unregister`, as before the sequence when no call names it. -/
theorem C8_replay_net_effect (valid : Source → Bool) (r : ReadinessRegistry)
    (calls : List Call) (s : Source)
    (hopen : r.closed = false) (hnodup : r.sources.Nodup) (hs : valid s = true) :
    (replay valid calls r).sources.Nodup ∧
    maskOf s (replay valid calls r).entries = netEffect calls s (maskOf s r.entries) ∧
    (s ∈ (replay valid calls r).sources ↔
      (netEffect calls s (maskOf s r.entries)).isSome = true) := by
  obtain ⟨_, h2, h3⟩ := replay_invariant valid r calls s hopen hnodup hs
  refine ⟨h2, h3, ?_⟩
  rw [← h3, maskOf_isSome_iff]
  rfl

/-- Witness of C8: on a fresh registry, source 3 registered with mask 1 and then with mask
4 ends with mask 4 (not 5), and source 4 registered and unregistered between is gone. -/
theorem C8_replay_net_effect_witness :
    (replay (fun _ => true)
      [.register 3 1, .register 4 2, .register 3 4, .unregister 4]
      { entries := [], closed := false }).sources.Nodup ∧
    maskOf 3 (replay (fun _ => true)
      [.register 3 1, .register 4 2, .register 3 4, .unregister 4]
      { entries := [], closed := false }).entries = some 4 ∧
    (3 ∈ (replay (fun _ => true)
      [.register 3 1, .register 4 2, .register 3 4, .unregister 4]
      { entries := [], closed := false }).sources ↔ (some 4 : Option InterestMask).isSome = true) :=
  C8_replay_net_effect (fun _ => true)
    { entries := [], closed := false }
    [.register 3 1, .register 4 2, .register 3 4, .unregister 4] 3 rfl (by decide) rfl

/-- C9: for every registry, `close` returns `Ok`, a second `close` returns `Ok` and leaves
the registry as it is, and `register`, `unregister` and `wait` on the closed registry
fail with `AlreadyClosed`, the registry unchanged. -/
theorem C9_close_idempotent (valid : Source → Bool) (r : ReadinessRegistry) :
    (close r).2 = .ok () ∧
    close (close r).1 = ((close r).1, .ok ()) ∧
    (∀ s m, register valid (close r).1 s m = ((close r).1, .error .alreadyClosed)) ∧
    (∀ s, unregister (close r).1 s = ((close r).1, .error .alreadyClosed)) ∧
    (∀ env timeout, wait env (close r).1 timeout = .fails .alreadyClosed) := by
  have hclosed : (close r).1.closed = true := by
    by_cases h : r.closed = true <;> simp [close, h]
  refine ⟨?_, ?_, ?_, ?_, ?_⟩
  · by_cases h : r.closed = true <;> simp [close, h]
  · by_cases h : r.closed = true <;> simp [close, h]
  · intro s m
    simp [register, hclosed]
  · intro s
    simp [unregister, hclosed]
  · intro env timeout
    simp [wait, hclosed]

end Facade

end CSystemLinux
